import Mathlib

/-!
Verification of the qstash Go client library against its natural-language
specification.  The definitions below are a shallow embedding of the
repository's source files (receiver.go, publisher.go, qstash.go, the
options / uuid / retrying-http-client files) together with the parts of
its direct dependencies that the source calls into (the golang-jwt/jwt
v3 claim helpers, crypto/sha256 and encoding/base64 from the Go standard
library).  Bytes are modelled as `Nat` below 256, 32-bit words as `Nat`
reduced modulo `2 ^ 32`, Go `time.Duration` / `int64` values as `Int`
(the validated backoff durations never approach the int64 overflow
boundary), and fallible operations as `Except`.
-/

namespace QStash

/-! ## SHA-256 (model of Go `crypto/sha256`, FIPS 180-4) -/

/-- The sixty-four SHA-256 round constants. -/
def shaK : List Nat :=
  [1116352408, 1899447441, 3049323471, 3921009573, 961987163, 1508970993,
   2453635748, 2870763221, 3624381080, 310598401, 607225278, 1426881987,
   1925078388, 2162078206, 2614888103, 3248222580, 3835390401, 4022224774,
   264347078, 604807628, 770255983, 1249150122, 1555081692, 1996064986,
   2554220882, 2821834349, 2952996808, 3210313671, 3336571891, 3584528711,
   113926993, 338241895, 666307205, 773529912, 1294757372, 1396182291,
   1695183700, 1986661051, 2177026350, 2456956037, 2730485921, 2820302411,
   3259730800, 3345764771, 3516065817, 3600352804, 4094571909, 275423344,
   430227734, 506948616, 659060556, 883997877, 958139571, 1322822218,
   1537002063, 1747873779, 1955562222, 2024104815, 2227730452, 2361852424,
   2428436474, 2756734187, 3204031479, 3329325298]

/-- The initial SHA-256 hash value. -/
def shaH0 : List Nat :=
  [1779033703, 3144134277, 1013904242, 2773480762,
   1359893119, 2600822924, 528734635, 1541459225]

/-- Right rotation of a 32-bit word. -/
def rotr (n w : Nat) : Nat := ((w >>> n) ||| (w <<< (32 - n))) % 2 ^ 32

def shaCh (x y z : Nat) : Nat := (x &&& y) ^^^ ((x ^^^ 4294967295) &&& z)

def shaMaj (x y z : Nat) : Nat := (x &&& y) ^^^ (x &&& z) ^^^ (y &&& z)

def bigSigma0 (x : Nat) : Nat := rotr 2 x ^^^ rotr 13 x ^^^ rotr 22 x

def bigSigma1 (x : Nat) : Nat := rotr 6 x ^^^ rotr 11 x ^^^ rotr 25 x

def smallSigma0 (x : Nat) : Nat := rotr 7 x ^^^ rotr 18 x ^^^ (x >>> 3)

def smallSigma1 (x : Nat) : Nat := rotr 17 x ^^^ rotr 19 x ^^^ (x >>> 10)

/-- Big-endian byte serialisation of a value into `n` bytes. -/
def beBytes : Nat → Nat → List Nat
  | 0, _ => []
  | n + 1, v => (v >>> (8 * n)) % 256 :: beBytes n v

/-- SHA-256 padding: append a 0x80 byte, zeros to 56 mod 64, then the
bit length as eight big-endian bytes. -/
def padMsg (msg : List Nat) : List Nat :=
  let L := msg.length
  let k := (120 - (L + 1) % 64) % 64
  msg ++ [128] ++ List.replicate k 0 ++ beBytes 8 (8 * L)

/-- Split the padded message into 64-byte blocks (fuel-driven so that it
reduces by kernel computation). -/
def toBlocksF : Nat → List Nat → List (List Nat)
  | 0, _ => []
  | _, [] => []
  | fuel + 1, l => l.take 64 :: toBlocksF fuel (l.drop 64)

def toBlocks (l : List Nat) : List (List Nat) := toBlocksF l.length l

/-- Combine big-endian bytes into 32-bit words. -/
def bytesToWords : List Nat → List Nat
  | b0 :: b1 :: b2 :: b3 :: rest =>
      (((b0 * 256 + b1) * 256 + b2) * 256 + b3) :: bytesToWords rest
  | _ => []

/-- Extend the sixteen message-schedule words by `n` further words. -/
def sched (w : List Nat) : Nat → List Nat
  | 0 => w
  | n + 1 =>
      let L := w.length
      let x := (smallSigma1 (w.getD (L - 2) 0) + w.getD (L - 7) 0
                + smallSigma0 (w.getD (L - 15) 0) + w.getD (L - 16) 0) % 2 ^ 32
      sched (w ++ [x]) n

/-- One round of the SHA-256 compression function. -/
def shaRound (k w : Nat) :
    Nat × Nat × Nat × Nat × Nat × Nat × Nat × Nat →
    Nat × Nat × Nat × Nat × Nat × Nat × Nat × Nat
  | (a, b, c, d, e, f, g, h) =>
      let t1 := (h + bigSigma1 e + shaCh e f g + k + w) % 2 ^ 32
      let t2 := (bigSigma0 a + shaMaj a b c) % 2 ^ 32
      ((t1 + t2) % 2 ^ 32, a, b, c, (d + t1) % 2 ^ 32, e, f, g)

/-- Compress one 64-byte block into the running hash. -/
def compressBlock (H : List Nat) (block : List Nat) : List Nat :=
  let W := sched (bytesToWords block) 48
  let s0 := (H.getD 0 0, H.getD 1 0, H.getD 2 0, H.getD 3 0,
             H.getD 4 0, H.getD 5 0, H.getD 6 0, H.getD 7 0)
  let r := (shaK.zip W).foldl (fun st kw => shaRound kw.1 kw.2 st) s0
  match r with
  | (a, b, c, d, e, f, g, h) =>
      [(H.getD 0 0 + a) % 2 ^ 32, (H.getD 1 0 + b) % 2 ^ 32,
       (H.getD 2 0 + c) % 2 ^ 32, (H.getD 3 0 + d) % 2 ^ 32,
       (H.getD 4 0 + e) % 2 ^ 32, (H.getD 5 0 + f) % 2 ^ 32,
       (H.getD 6 0 + g) % 2 ^ 32, (H.getD 7 0 + h) % 2 ^ 32]

/-- Serialise a 32-bit word into four big-endian bytes. -/
def wordBytes (w : Nat) : List Nat :=
  [(w >>> 24) % 256, (w >>> 16) % 256, (w >>> 8) % 256, w % 256]

/-- SHA-256 digest of a byte sequence, as 32 bytes.  Model of Go
`sha256.Sum256`. -/
def sha256 (msg : List Nat) : List Nat :=
  (((toBlocks (padMsg msg)).foldl compressBlock shaH0).map wordBytes).flatten

/-! ## URL-safe base64 (model of Go `base64.URLEncoding.EncodeToString`) -/

/-- The URL-safe base64 alphabet. -/
def b64Chars : List Char :=
  "ABCDEFGHIJKLMNOPQRSTUVWXYZabcdefghijklmnopqrstuvwxyz0123456789-_".toList

def b64Char (n : Nat) : Char := b64Chars.getD n 'A'

def idxOf : List Char → Char → Nat
  | [], _ => 0
  | a :: as, c => if a == c then 0 else idxOf as c + 1

def b64CharInv (c : Char) : Nat := idxOf b64Chars c

/-- The padding character. -/
def eqChar : Char := '='

/-- URL-safe base64 encoding with padding, three input bytes per four
output characters. -/
def b64encode : List Nat → List Char
  | [] => []
  | [a] => [b64Char (a / 4), b64Char (a % 4 * 16), eqChar, eqChar]
  | [a, b] => [b64Char (a / 4), b64Char (a % 4 * 16 + b / 16), b64Char (b % 16 * 4), eqChar]
  | a :: b :: c :: rest =>
      b64Char (a / 4) :: b64Char (a % 4 * 16 + b / 16) ::
      b64Char (b % 16 * 4 + c / 64) :: b64Char (c % 64) :: b64encode rest

/-- Inverse of `b64encode`, used to establish injectivity of the
encoding on byte sequences. -/
def b64decode : List Char → List Nat
  | c1 :: c2 :: c3 :: c4 :: rest =>
      if c3 == eqChar then
        [b64CharInv c1 * 4 + b64CharInv c2 / 16]
      else if c4 == eqChar then
        [b64CharInv c1 * 4 + b64CharInv c2 / 16,
         b64CharInv c2 % 16 * 16 + b64CharInv c3 / 4]
      else
        (b64CharInv c1 * 4 + b64CharInv c2 / 16) ::
        (b64CharInv c2 % 16 * 16 + b64CharInv c3 / 4) ::
        (b64CharInv c3 % 4 * 64 + b64CharInv c4) :: b64decode rest
  | _ => []

/-- The body-hash value computed by receiver.go line 100-101:
`base64.URLEncoding.EncodeToString(sha256.Sum256(body))`. -/
def bodyHashB64 (body : List Nat) : String := ⟨b64encode (sha256 body)⟩

/-! ## JWT claims model (golang-jwt/jwt v3, as called by receiver.go)

The receiver imports `github.com/golang-jwt/jwt` (v3) and uses the
default `MapClaims`.  The helpers below mirror `map_claims.go` /
`claims.go` of that library: a claim-presence switch that yields
`req == false` for an absent claim, and value helpers that treat a zero
timestamp as unset. -/

/-- Registered claims of the parsed token; numeric claims are unix
seconds.  `body` is the custom body-hash claim checked by receiver.go
(a non-string or absent claim never equals the computed hash). -/
structure MapClaims where
  iss : Option String := none
  exp : Option Int := none
  nbf : Option Int := none
  iat : Option Int := none
  body : Option String := none
deriving DecidableEq

/-- Mirrors `verifyExp` of claims.go: a zero expiry counts as unset. -/
def verifyExpHelper (e now : Int) (required : Bool) : Bool :=
  if e = 0 then !required else now ≤ e

/-- Mirrors `verifyNbf` of claims.go: a zero not-before counts as unset. -/
def verifyNbfHelper (n now : Int) (required : Bool) : Bool :=
  if n = 0 then !required else n ≤ now

/-- Mirrors `verifyIat` of claims.go: a zero issued-at counts as unset. -/
def verifyIatHelper (i now : Int) (required : Bool) : Bool :=
  if i = 0 then !required else i ≤ now

/-- Mirrors `verifyIss` of claims.go: an empty issuer counts as unset. -/
def verifyIssHelper (iss cmp : String) (required : Bool) : Bool :=
  if iss = "" then !required else iss == cmp

/-- Mirrors `MapClaims.VerifyExpiresAt`: an absent claim yields `req == false`. -/
def MapClaims.verifyExpiresAt (m : MapClaims) (cmp : Int) (req : Bool) : Bool :=
  match m.exp with
  | none => !req
  | some e => verifyExpHelper e cmp req

/-- Mirrors `MapClaims.VerifyNotBefore`: an absent claim yields `req == false`. -/
def MapClaims.verifyNotBefore (m : MapClaims) (cmp : Int) (req : Bool) : Bool :=
  match m.nbf with
  | none => !req
  | some n => verifyNbfHelper n cmp req

/-- Mirrors `MapClaims.VerifyIssuedAt`: an absent claim yields `req == false`. -/
def MapClaims.verifyIssuedAt (m : MapClaims) (cmp : Int) (req : Bool) : Bool :=
  match m.iat with
  | none => !req
  | some i => verifyIatHelper i cmp req

/-- Mirrors `MapClaims.VerifyIssuer`: an absent or non-string claim reads as "". -/
def MapClaims.verifyIssuer (m : MapClaims) (cmp : String) (req : Bool) : Bool :=
  verifyIssHelper (m.iss.getD "") cmp req

/-- Mirrors `MapClaims.Valid`, run by `jwt.Parse` itself after checking the
signature: exp, iat and nbf are each validated with `required = false`. -/
def MapClaims.valid (m : MapClaims) (now : Int) : Bool :=
  m.verifyExpiresAt now false && m.verifyIssuedAt now false && m.verifyNotBefore now false

/-- A parsed, well-formed token presented in the `Upstash-Signature`
header.  `algIsHMAC` models the `token.Method.(*jwt.SigningMethodHMAC)`
check of the key function; `sigValidFor key` abstracts whether the
token's HMAC signature verifies under `[]byte(key)`. -/
structure JwtToken where
  algIsHMAC : Bool
  sigValidFor : String → Bool
  claims : MapClaims

/-- The distinct failures produced by `verify` in receiver.go; `message`
below maps each to the text written into the HTTP response. -/
inductive VerifyError
  | parseJwt
  | invalidIssuer
  | expired
  | notYetValid
  | bodyHashMismatch
deriving DecidableEq

/-- The error text of each failure (the `parseJwt` text is the prefix of
the wrapped `fmt.Errorf("could not parse jwt: %w", err)` message). -/
def VerifyError.message : VerifyError → String
  | .parseJwt => "could not parse jwt"
  | .invalidIssuer => "invalid issuer"
  | .expired => "token has expired"
  | .notYetValid => "token is not valid yet"
  | .bodyHashMismatch => "body hash does not match"

/-- Model of `verify` in receiver.go lines 78-105: parse the JWT
(HMAC method check, signature check under `signingKey`, and the
library's own claim validation), then check issuer, expiry, not-before
and the body-hash claim in order. -/
def verify (body : List Nat) (tok : JwtToken) (signingKey : String) (now : Int) :
    Except VerifyError Unit :=
  if !tok.algIsHMAC then .error .parseJwt
  else if !tok.sigValidFor signingKey then .error .parseJwt
  else if !tok.claims.valid now then .error .parseJwt
  else if !tok.claims.verifyIssuer "Upstash" true then .error .invalidIssuer
  else if !tok.claims.verifyExpiresAt now true then .error .expired
  else if !tok.claims.verifyNotBefore now true then .error .notYetValid
  else if tok.claims.body ≠ some (bodyHashB64 body) then .error .bodyHashMismatch
  else .ok ()

/-! ## Receiver / message lifecycle (receiver.go, qstash.go) -/

/-- Writes observed on the `http.ResponseWriter`; `http.Error` performs
a `WriteHeader` followed by the message text. -/
inductive RespEvent
  | status (code : Nat)
  | text (s : String)
deriving DecidableEq

/-- Model of `http.Error(w, msg, code)`. -/
def httpError (msg : String) (code : Nat) : List RespEvent :=
  [.status code, .text msg]

/-- Header maps are association lists of name to values
(Go `http.Header` / `map[string][]string`). -/
abbrev Hdr : Type := List (String × List String)

/-- The `Message` struct of qstash.go.  `Headers` is `none` for a Go nil
map; the private response writer is modelled by threading an explicit
event list next to the message. -/
structure Message where
  ID : String := ""
  Headers : Option Hdr := none
  Body : List Nat := []
  Retried : Int := 0
  isAcknowledged : Bool := false
deriving DecidableEq

/-- Model of `Ack` in qstash.go lines 33-36: set the acknowledgment
flag and immediately write a 200 status to the response writer. -/
def Message.Ack : Message × List RespEvent → Message × List RespEvent
  | (m, w) => ({ m with isAcknowledged := true }, w ++ [.status 200])

/-- An inbound webhook request as read by the handler: the body bytes,
the parsed `Upstash-Signature` token, the `Upstash-Message-Id` header,
all inbound headers, and the already-parsed `Upstash-Retried` count
(`strconv.Atoi` with errors ignored). -/
structure InboundRequest where
  body : List Nat
  token : JwtToken
  messageId : String
  headers : Hdr
  retried : Int

/-- The `Receiver` struct of receiver.go. -/
structure Receiver where
  signingKey : String
  nextSigningKey : String

/-- The message value constructed on lines 59-64 of receiver.go. -/
def mkInboundMessage (req : InboundRequest) : Message :=
  { ID := req.messageId, Headers := some req.headers, Body := req.body,
    Retried := req.retried, isAcknowledged := false }

/-- Model of `Receive` in receiver.go lines 37-75: verify the token
against the current key, on failure against the next key — writing a 401
on both outcomes of that retry — then dispatch the message to the
callback and answer 422 if it returns unacknowledged.  The callback is
a transformer of the message together with the response-writer event
list (`Message.Ack` is one such transformer). -/
def Receiver.Receive (q : Receiver) (req : InboundRequest) (now : Int)
    (onReceive : Option (Message × List RespEvent → Message × List RespEvent)) :
    List RespEvent :=
  match verify req.body req.token q.signingKey now with
  | .error e1 =>
      match verify req.body req.token q.nextSigningKey now with
      | .error e2 => httpError e2.message 401
      | .ok _ => httpError e1.message 401
  | .ok _ =>
      let p := match onReceive with
        | some f => f (mkInboundMessage req, [])
        | none => (mkInboundMessage req, [])
      if !p.1.isAcknowledged then
        p.2 ++ httpError "message was not acknowledged by the receiver" 422
      else p.2

/-! ## Retrying transport (the httpClient wrapper) -/

/-- Two's-complement wraparound of a signed 64-bit value, as Go int64
arithmetic produces it. -/
def wrap64 (x : Int) : Int := (x + 2 ^ 63) % 2 ^ 64 - 2 ^ 63

/-- The loop of `getExponentialBackOffDuration`: double, clamp at the
maximum and stop.  Durations are `time.Duration`, i.e. int64
nanoseconds, so the doubling `exp *= 2` wraps around at 2^63. -/
def backoffLoop (maxB : Int) : Nat → Int → Int
  | 0, e => e
  | n + 1, e =>
      let e2 := wrap64 (e * 2)
      if maxB < e2 then maxB else backoffLoop maxB n e2

/-- Model of `getExponentialBackOffDuration(attempt)`: start from `MinBackOff`
and double once per loop iteration, `attempt` times, clamping at
`MaxBackOff`. -/
def getExponentialBackOffDuration (minB maxB : Int) (attempt : Nat) : Int :=
  backoffLoop maxB attempt minB

instance {ε α : Type} [DecidableEq ε] [DecidableEq α] : DecidableEq (Except ε α) := fun
  | .error e, .error f =>
      decidable_of_iff (e = f) (by constructor <;> (intro h; first | rw [h] | (cases h; rfl)))
  | .error _, .ok _ => isFalse (by intro h; cases h)
  | .ok _, .error _ => isFalse (by intro h; cases h)
  | .ok a, .ok b =>
      decidable_of_iff (a = b) (by constructor <;> (intro h; first | rw [h] | (cases h; rfl)))

/-- An HTTP response as seen by this client: the status code, the raw
body text, and the result of JSON-decoding the body into an object with
a `messageId` field (abstraction of `encoding/json`). -/
structure Response where
  StatusCode : Int
  BodyText : String
  DecodedMessageId : Except String String
deriving DecidableEq

/-- Mirrors `isStatusOK` of the http client: status in [200, 300). -/
def isStatusOK (statusCode : Int) : Bool := 200 ≤ statusCode && statusCode < 300

/-- An attempt fails when the send errors or the status is not OK
(the `err != nil || !c.isStatusOK(...)` test in `Do`). -/
def attemptFails : Except String Response → Bool
  | .error _ => true
  | .ok r => !isStatusOK r.StatusCode

/-- The retry loop of `(*httpClient).Do`, iterating attempt `i` with
`rem` further iterations allowed; returns the last outcome, the number
of sends performed, and the sleeps in order. -/
def doAux (send : Nat → Except String Response) (minB maxB : Int) :
    Nat → Nat → Except String Response × Nat × List Int
  | i, 0 =>
      let res := send i
      if attemptFails res then (res, 1, [getExponentialBackOffDuration minB maxB i])
      else (res, 1, [])
  | i, rem + 1 =>
      let res := send i
      if attemptFails res then
        let r := doAux send minB maxB (i + 1) rem
        (r.1, r.2.1 + 1, getExponentialBackOffDuration minB maxB i :: r.2.2)
      else (res, 1, [])

/-- Model of the http client `Do`: up to `Retries + 1` total attempts starting at
attempt 1, sleeping an exponential backoff after each failure. -/
def httpClientDo (send : Nat → Except String Response) (retries : Nat) (minB maxB : Int) :
    Except String Response × Nat × List Int :=
  doAux send minB maxB 1 retries

/-! ## Header maps (Go `net/http` / `net/textproto`) -/

/-- Mirrors `validHeaderFieldByte` of net/textproto: letters, digits and the
legal token punctuation. -/
def validHeaderFieldByte (c : Char) : Bool :=
  c.isAlphanum || c ∈ "!#$%&'*+-.^_`|~".toList

/-- ASCII lowering of one character (the fragment of `strings.ToLower`
exercised by header keys). -/
def lowerChar (c : Char) : Char :=
  if 'A' ≤ c ∧ c ≤ 'Z' then Char.ofNat (c.toNat + 32) else c

def lowerStr (s : String) : String := ⟨s.toList.map lowerChar⟩

/-- Casing pass of `CanonicalMIMEHeaderKey`: uppercase the first letter
and each letter after a hyphen, lowercase the rest. -/
def canonChars : Bool → List Char → List Char
  | _, [] => []
  | up, c :: cs =>
      let c2 := if up ∧ 'a' ≤ c ∧ c ≤ 'z' then Char.ofNat (c.toNat - 32)
                else if ¬ up ∧ 'A' ≤ c ∧ c ≤ 'Z' then Char.ofNat (c.toNat + 32)
                else c
      c2 :: canonChars (c2 == '-') cs

/-- Model of `textproto.CanonicalMIMEHeaderKey`, applied by `http.Header.Set`:
keys with an invalid byte are left untouched. -/
def canonicalKey (s : String) : String :=
  if s.toList.all validHeaderFieldByte then ⟨canonChars true s.toList⟩ else s

/-- First-match lookup in a header association list (Go map indexing). -/
def lookupA : Hdr → String → Option (List String)
  | [], _ => none
  | (k, v) :: t, key => if k = key then some v else lookupA t key

/-- Map update: replace the entry for `k` or append it. -/
def setA : Hdr → String → List String → Hdr
  | [], k, v => [(k, v)]
  | (k1, v1) :: t, k, v => if k1 = k then (k, v) :: t else (k1, v1) :: setA t k v

/-- Model of `http.Header.Set`: store `[value]` under the canonical key. -/
def hSet (h : Hdr) (k v : String) : Hdr := setA h (canonicalKey k) [v]

/-- Prefix test on character lists. -/
def isPre : List Char → List Char → Bool
  | [], _ => true
  | _ :: _, [] => false
  | a :: as, b :: bs => a == b && isPre as bs

/-- The check of publisher.go line 75:
`strings.HasPrefix(strings.ToLower(k), "upstash-forward-")`. -/
def fwdKey (k : String) : Bool :=
  isPre "upstash-forward-".toList (lowerStr k).toList

/-! ## Publisher (publisher.go) -/

/-- The `Publisher` struct fields used by `Publish`; the injected
http client and uuid generator are passed to `Publish` explicitly. -/
structure Publisher where
  token : String
  url : String
  topic : String

/-- The `PublishOptions` struct.  The `Schedule` field is referenced by
publisher.go (`os.Schedule`, `WithSchedule`) but its declaration is not
among the available source files; modelled from the spec: a cron-style
schedule string, empty when unset. -/
structure PublishOptions where
  Delay : Int := 0
  Retries : Int := 0
  Schedule : String := ""
  ContentBasedDeduplication : Bool := false

/-- The distinct error outcomes of `Publish` (each `fmt.Errorf` site). -/
inductive PubError
  | badHeaderKey
  | dedupConflict
  | uuidFailed (msg : String)
  | transportFailed (msg : String)
  | badStatus (code : Int) (bodyText : String)
  | decodeFailed (msg : String)
deriving DecidableEq

/-- The outgoing HTTP request handed to the transport. -/
structure Request where
  method : String
  url : String
  hdrs : Hdr
  body : List Nat
deriving DecidableEq

/-- Rendering of a `time.Duration` header value.  Go prints compound
units ("1s", "200ms"); no claim depends on the rendered text, so the
model prints the nanosecond count. -/
def durationStr (d : Int) : String := toString d ++ "ns"

/-- The observable outcome of one `Publish` call: the returned
error-or-unit, the request given to the transport (`none` when the
transport was never invoked), and the caller's message after the call
(its `ID` and, through map aliasing, its `Headers` may be mutated). -/
structure PublishResult where
  result : Except PubError Unit
  sent : Option Request
  final : Message
deriving DecidableEq

/-- Lines 96-109 of publisher.go: the standard headers set on every
request after the deduplication choice — authorization, content type
and the optional delay / schedule / retries headers. -/
def stdHeaders (q : Publisher) (os : PublishOptions) (h : Hdr) : Hdr :=
  let h2 := hSet h "Authorization" ("Bearer " ++ q.token)
  let h3 := hSet h2 "Content-Type" "application/json"
  let h4 := if 0 < os.Delay then hSet h3 "Upstash-Delay" (durationStr os.Delay) else h3
  let h5 := if 0 < os.Schedule.length then hSet h4 "Upstash-Schedule" os.Schedule else h4
  if 0 < os.Retries then hSet h5 "Upstash-Retries" (toString os.Retries) else h5

/-- Lines 111-132 of publisher.go: hand the finished request to the
transport and decode the response.  `aliased` records whether the
request's header map is the caller's own map (publisher.go line 79), in
which case the caller observes every header written. -/
def publishSend (m : Message) (aliased : Bool) (req : Request)
    (doReq : Request → Except String Response) : PublishResult :=
  let mh := if aliased then { m with Headers := some req.hdrs } else m
  match doReq req with
  | .error e => ⟨.error (.transportFailed e), some req, mh⟩
  | .ok rsp =>
      if rsp.StatusCode < 200 ∨ 299 < rsp.StatusCode then
        ⟨.error (.badStatus rsp.StatusCode rsp.BodyText), some req, mh⟩
      else
        match rsp.DecodedMessageId with
        | .error e => ⟨.error (.decodeFailed e), some req, mh⟩
        | .ok mid => ⟨.ok (), some req, { mh with ID := mid }⟩

/-- Model of `Publish` in publisher.go lines 54-133.  `newV4` is the
outcome of the injected uuid generator, `doReq` the injected transport.
The POST target is `{url}/{topic}` with the message body; custom header
keys must carry the forwarding prefix, after which the caller's map
itself becomes the request's header map; exactly one deduplication
strategy is chosen; then the standard headers are set and the request
is sent. -/
def Publish (q : Publisher) (m : Message) (os : PublishOptions)
    (newV4 : Except String String)
    (doReq : Request → Except String Response) : PublishResult :=
  let validated : Except PubError (Hdr × Bool) :=
    match m.Headers with
    | some hs =>
        if hs.any (fun p => !fwdKey p.1) then .error .badHeaderKey
        else .ok (hs, true)
    | none => .ok ([], false)
  match validated with
  | .error e => ⟨.error e, none, m⟩
  | .ok (h0, aliased) =>
      if 0 < m.ID.length ∧ os.ContentBasedDeduplication then
        ⟨.error .dedupConflict, none, m⟩
      else
        let dedup : Except PubError Hdr :=
          if os.ContentBasedDeduplication then
            .ok (hSet h0 "Upstash-Content-Based-Deduplication" "true")
          else if 0 < m.ID.length then
            .ok (hSet h0 "Upstash-Deduplication-ID" m.ID)
          else
            match newV4 with
            | .error e => .error (.uuidFailed e)
            | .ok g => .ok (hSet h0 "Upstash-Deduplication-ID" g)
        match dedup with
        | .error e => ⟨.error e, none, m⟩
        | .ok h1 =>
            let req : Request :=
              { method := "POST", url := q.url ++ "/" ++ q.topic,
                hdrs := stdHeaders q os h1, body := m.Body }
            publishSend m aliased req doReq

/-! ## Concrete instances used by the closed theorems below -/

/-- A token signed with the next signing key only, with otherwise valid
claims over the empty body (the key-rotation scenario). -/
def rotTok : JwtToken :=
  { algIsHMAC := true, sigValidFor := fun k => k == "next-signing-key",
    claims := { iss := some "Upstash", exp := some 100, nbf := some 1,
                body := some (bodyHashB64 []) } }

def rotReq : InboundRequest := ⟨[], rotTok, "m1", [], 0⟩

def rotRcv : Receiver := ⟨"current-signing-key", "next-signing-key"⟩

/-- A token valid under any key over the body `[7]`. -/
def c4Tok : JwtToken :=
  { algIsHMAC := true, sigValidFor := fun _ => true,
    claims := { iss := some "Upstash", exp := some 100, nbf := some 1,
                body := some (bodyHashB64 [7]) } }

/-- A token valid under any key over the empty body. -/
def c6Tok : JwtToken :=
  { algIsHMAC := true, sigValidFor := fun _ => true,
    claims := { iss := some "Upstash", exp := some 100, nbf := some 1,
                body := some (bodyHashB64 []) } }

def c6Req : InboundRequest := ⟨[], c6Tok, "m6", [], 0⟩

def c6Rcv : Receiver := ⟨"key-a", "key-b"⟩

/-- A token passing every check except that its not-before claim is
absent. -/
def c7Tok : JwtToken :=
  { algIsHMAC := true, sigValidFor := fun _ => true,
    claims := { iss := some "Upstash", exp := some 100, nbf := none,
                body := some (bodyHashB64 []) } }

/-- A token with a present, past not-before claim. -/
def c7vTok : JwtToken :=
  { algIsHMAC := true, sigValidFor := fun _ => true,
    claims := { iss := some "Upstash", exp := some 100, nbf := some 1,
                body := some (bodyHashB64 []) } }

def pubQ : Publisher := ⟨"token", "url", "topic"⟩

/-- A transport that accepts everything and answers `mock-id`. -/
def okDo : Request → Except String Response := fun _ => .ok ⟨200, "ok-body", .ok "mock-id"⟩

/-- A transport that always answers 500. -/
def failDo : Request → Except String Response := fun _ => .ok ⟨500, "boom", .error "not json"⟩

/-- A message carrying both a custom identifier and (through the
options below) content-based deduplication. -/
def conflictMsg : Message := { ID := "custom-deduplication-id", Body := [1] }

/-- A message with one well-prefixed custom header and a custom id. -/
def c9Msg : Message :=
  { ID := "custom-id", Headers := some [("Upstash-Forward-Key", ["value"])], Body := [2] }

def c10Msg : Message :=
  { Headers := some [("Upstash-Forward-Key", ["value"])], Body := [3] }

def cbdOpts : PublishOptions := { ContentBasedDeduplication := true }

/-- A message whose custom header key lacks the forwarding prefix. -/
def c9BadMsg : Message := { Headers := some [("X-Custom", ["v"])], Body := [2] }

/-- The request that `Publish pubQ c10Msg {} (.ok "uuid") okDo` hands to
the transport. -/
def c10Req : Request :=
  { method := "POST", url := "url/topic",
    hdrs := [("Upstash-Forward-Key", ["value"]), ("Upstash-Deduplication-Id", ["uuid"]),
             ("Authorization", ["Bearer token"]), ("Content-Type", ["application/json"])],
    body := [3] }

def c8Msg : Message := { Body := [1] }

/-- The request that `Publish pubQ c8Msg {} (.ok "uuid") failDo` hands
to the transport. -/
def c8Req : Request :=
  { method := "POST", url := "url/topic",
    hdrs := [("Upstash-Deduplication-Id", ["uuid"]), ("Authorization", ["Bearer token"]),
             ("Content-Type", ["application/json"])],
    body := [1] }

end QStash

namespace QStash

/-! ## Base64 and SHA-256 byte facts -/

theorem b64_char_facts : ∀ n, n < 64 → b64CharInv (b64Char n) = n ∧ b64Char n ≠ eqChar := by
  decide

theorem b64_roundtrip :
    ∀ l : List Nat, (∀ x ∈ l, x < 256) → b64decode (b64encode l) = l := by
  intro l
  induction l using b64encode.induct with
  | case1 => intro _; rfl
  | case2 a =>
      intro h
      have ha : a < 256 := h a (by simp)
      have h1 := b64_char_facts (a / 4) (by omega)
      have h2 := b64_char_facts (a % 4 * 16) (by omega)
      simp [b64encode, b64decode, h1.1, h2.1]
      omega
  | case3 a b =>
      intro h
      have ha : a < 256 := h a (by simp)
      have hb : b < 256 := h b (by simp)
      have h1 := b64_char_facts (a / 4) (by omega)
      have h2 := b64_char_facts (a % 4 * 16 + b / 16) (by omega)
      have h3 := b64_char_facts (b % 16 * 4) (by omega)
      simp [b64encode, b64decode, h1.1, h2.1, h3.1, h3.2]
      omega
  | case4 a b c rest ih =>
      intro h
      have ha : a < 256 := h a (by simp)
      have hb : b < 256 := h b (by simp)
      have hc : c < 256 := h c (by simp)
      have h1 := b64_char_facts (a / 4) (by omega)
      have h2 := b64_char_facts (a % 4 * 16 + b / 16) (by omega)
      have h3 := b64_char_facts (b % 16 * 4 + c / 64) (by omega)
      have h4 := b64_char_facts (c % 64) (by omega)
      have hrest := ih (fun x hx => h x (by simp [hx]))
      simp [b64encode, b64decode, h1.1, h2.1, h3.1, h4.1, h3.2, h4.2, hrest]
      omega

theorem sha256_bytes_lt (msg : List Nat) : ∀ x ∈ sha256 msg, x < 256 := by
  intro x hx
  rcases List.mem_flatten.1 hx with ⟨l, hl, hxl⟩
  rcases List.mem_map.1 hl with ⟨w, _, rfl⟩
  simp [wordBytes] at hxl
  rcases hxl with h | h | h | h <;> omega

/-- Distinct digests have distinct URL-safe base64 encodings. -/
theorem bodyHashB64_inj {b b' : List Nat} (h : sha256 b ≠ sha256 b') :
    bodyHashB64 b ≠ bodyHashB64 b' := by
  intro he
  apply h
  have hdata : b64encode (sha256 b) = b64encode (sha256 b') := congrArg String.data he
  have h1 := b64_roundtrip (sha256 b) (sha256_bytes_lt b)
  have h2 := b64_roundtrip (sha256 b') (sha256_bytes_lt b')
  rw [← h1, ← h2, hdata]

end QStash

namespace QStash

/-! ## Backoff schedule -/

/-- Within the signed-64-bit range the wraparound is the identity. -/
theorem wrap64_eq {x : Int} (h1 : -9223372036854775808 ≤ x)
    (h2 : x < 9223372036854775808) : wrap64 x = x := by
  unfold wrap64
  have e1 : (2 : Int) ^ 63 = 9223372036854775808 := by norm_num
  have e2 : (2 : Int) ^ 64 = 18446744073709551616 := by norm_num
  rw [e1, e2]
  omega

theorem backoffLoop_eq (maxB : Int) (hmax : maxB < 2 ^ 62) :
    ∀ (n : Nat) (e : Int), 0 < e → e ≤ maxB →
      backoffLoop maxB n e = min (e * 2 ^ n) maxB := by
  have hmax2 : maxB < 4611686018427387904 := by
    have e62 : (2 : Int) ^ 62 = 4611686018427387904 := by norm_num
    rw [e62] at hmax
    exact hmax
  intro n
  induction n with
  | zero =>
      intro e he hle
      simp [backoffLoop, min_eq_left hle]
  | succ n ih =>
      intro e he hle
      have hp : (0 : Int) < 2 ^ n := by positivity
      have hw : wrap64 (e * 2) = e * 2 :=
        wrap64_eq (by linarith) (by linarith)
      unfold backoffLoop
      simp only [hw]
      by_cases h : maxB < e * 2
      · have h2 : maxB ≤ e * 2 ^ (n + 1) := by
          calc maxB ≤ e * 2 := le_of_lt h
            _ = e * 2 * 1 := by ring
            _ ≤ e * 2 * 2 ^ n := by
                have : (1 : Int) ≤ 2 ^ n := by omega
                exact mul_le_mul_of_nonneg_left this (by linarith)
            _ = e * 2 ^ (n + 1) := by ring
        simp [h, min_eq_right h2]
      · push_neg at h
        simp only [h, if_neg (not_lt.2 h)]
        rw [ih (e * 2) (by linarith) h]
        congr 1
        ring

end QStash

namespace QStash

/-- C2 (counterexample): with the repository's default policy
(MinBackOff = 200ms, MaxBackOff = 1s in nanoseconds) the delay computed
before the first retry is 400ms, not MinBackOff. -/
theorem claim_C2_counterexample :
    getExponentialBackOffDuration 200000000 1000000000 1 = 400000000
    ∧ (400000000 : Int) ≠ 200000000 := by
  constructor
  · rfl
  · decide

/-- C2 (amended): for attempt `i` with `0 < MinBackOff ≤ MaxBackOff`
and `MaxBackOff` below `2 ^ 62` nanoseconds (about 146 years — the
policies whose int64 doubling cannot wrap), the backoff delay equals
MinBackOff doubled once per attempt so far — `MinBackOff * 2 ^ i` —
clamped at MaxBackOff; hence the first retry's delay is
`min (2 * MinBackOff) MaxBackOff`, the schedule is monotone
non-decreasing, and it never exceeds MaxBackOff.  It is a pure function
of (attempt, MinBackOff, MaxBackOff). -/
theorem claim_C2 (minB maxB : Int) (a : Nat) (h1 : 0 < minB) (h2 : minB ≤ maxB)
    (h3 : maxB < 2 ^ 62) :
    getExponentialBackOffDuration minB maxB a = min (minB * 2 ^ a) maxB
    ∧ (∀ b : Nat, a ≤ b →
        getExponentialBackOffDuration minB maxB a ≤ getExponentialBackOffDuration minB maxB b)
    ∧ getExponentialBackOffDuration minB maxB a ≤ maxB
    ∧ getExponentialBackOffDuration minB maxB 1 = min (minB * 2) maxB := by
  have key : ∀ n : Nat, getExponentialBackOffDuration minB maxB n = min (minB * 2 ^ n) maxB :=
    fun n => backoffLoop_eq maxB h3 n minB h1 h2
  refine ⟨key a, ?_, ?_, ?_⟩
  · intro b hab
    rw [key a, key b]
    refine min_le_min ?_ le_rfl
    exact mul_le_mul_of_nonneg_left (pow_le_pow_right₀ (by norm_num) hab) (le_of_lt h1)
  · rw [key a]; exact min_le_right _ _
  · rw [key 1]; norm_num

/-- C2 (witness): the amended schedule at the default policy. -/
theorem claim_C2_witness :
    (0 : Int) < 200000000 ∧ (200000000 : Int) ≤ 1000000000
    ∧ (1000000000 : Int) < 2 ^ 62
    ∧ getExponentialBackOffDuration 200000000 1000000000 1
        = min ((200000000 : Int) * 2 ^ 1) 1000000000
    ∧ getExponentialBackOffDuration 200000000 1000000000 1 ≤ 1000000000 :=
  ⟨by decide, by decide, by norm_num,
   (claim_C2 200000000 1000000000 1 (by decide) (by decide) (by norm_num)).1,
   (claim_C2 200000000 1000000000 1 (by decide) (by decide) (by norm_num)).2.2.1⟩

/-! ## Retrying transport -/

theorem doAux_allFail (send : Nat → Except String Response) (minB maxB : Int)
    (hfail : ∀ j, attemptFails (send j) = true) :
    ∀ (rem i : Nat),
      (doAux send minB maxB i rem).1 = send (i + rem)
      ∧ (doAux send minB maxB i rem).2.1 = rem + 1 := by
  intro rem
  induction rem with
  | zero => intro i; simp [doAux, hfail i]
  | succ n ih =>
      intro i
      have h := hfail i
      have hr := ih (i + 1)
      simp only [doAux, h, if_pos]
      constructor
      · rw [hr.1]; congr 1; omega
      · rw [hr.2]

/-- C5: against a send capability that fails on every attempt, `Do`
invokes the send exactly `Retries + 1` times and returns the outcome of
the last attempt unmodified. -/
theorem claim_C5 (send : Nat → Except String Response) (retries : Nat) (minB maxB : Int)
    (hfail : ∀ j, attemptFails (send j) = true) :
    (httpClientDo send retries minB maxB).2.1 = retries + 1
    ∧ (httpClientDo send retries minB maxB).1 = send (retries + 1) := by
  have h := doAux_allFail send minB maxB hfail retries 1
  unfold httpClientDo
  refine ⟨h.2, ?_⟩
  rw [h.1]
  congr 1
  omega

/-- C5 (witness): an always-erroring transport with Retries = 5 is
invoked exactly 6 times and its error is returned untouched. -/
theorem claim_C5_witness :
    (∀ j, attemptFails ((fun _ => .error "network down" : Nat → Except String Response) j) = true)
    ∧ (httpClientDo (fun _ => .error "network down") 5 200000000 1000000000).2.1 = 6
    ∧ (httpClientDo (fun _ => .error "network down") 5 200000000 1000000000).1
        = .error "network down" :=
  ⟨fun _ => rfl,
   (claim_C5 (fun _ => .error "network down") 5 200000000 1000000000 (fun _ => rfl)).1,
   (claim_C5 (fun _ => .error "network down") 5 200000000 1000000000 (fun _ => rfl)).2⟩

end QStash

namespace QStash

/-! ## Receiver claims -/

/-- C1 (code bug): for a token whose signature verifies under the next
signing key but not under the current one, `Receive` still writes a 401
carrying the FIRST failure's message and never invokes the callback
(no 200 is ever written even though the callback acknowledges), instead
of treating the request as authenticated. -/
theorem claim_C1 :
    verify rotReq.body rotReq.token rotRcv.signingKey 50 = .error .parseJwt
    ∧ verify rotReq.body rotReq.token rotRcv.nextSigningKey 50 = .ok ()
    ∧ rotRcv.Receive rotReq 50 (some Message.Ack) = httpError VerifyError.parseJwt.message 401
    ∧ RespEvent.status 200 ∉ rotRcv.Receive rotReq 50 (some Message.Ack)
    ∧ RespEvent.status 401 ∈ rotRcv.Receive rotReq 50 (some Message.Ack) :=
  ⟨rfl, rfl, rfl, by decide, by decide⟩

/-- C4: given that the parse, signature, issuer, expiry and not-before
checks pass, `verify` succeeds exactly when the body claim equals the
URL-safe base64 encoding of the SHA-256 digest of the received body;
verifying the same token against any body with a different digest
yields the body-hash error. -/
theorem claim_C4 (body : List Nat) (tok : JwtToken) (key : String) (now : Int)
    (h1 : tok.algIsHMAC = true) (h2 : tok.sigValidFor key = true)
    (h3 : tok.claims.valid now = true)
    (h4 : tok.claims.verifyIssuer "Upstash" true = true)
    (h5 : tok.claims.verifyExpiresAt now true = true)
    (h6 : tok.claims.verifyNotBefore now true = true) :
    (verify body tok key now = .ok () ↔ tok.claims.body = some (bodyHashB64 body))
    ∧ ∀ body' : List Nat, sha256 body' ≠ sha256 body →
        tok.claims.body = some (bodyHashB64 body) →
        verify body' tok key now = .error .bodyHashMismatch := by
  constructor
  · unfold verify
    simp only [h1, h2, h3, h4, h5, h6, Bool.not_true, Bool.false_eq_true, if_false]
    by_cases hb : tok.claims.body = some (bodyHashB64 body) <;> simp [hb]
  · intro body' hne hb
    have hx : bodyHashB64 body ≠ bodyHashB64 body' :=
      fun e => bodyHashB64_inj hne e.symm
    unfold verify
    simp only [h1, h2, h3, h4, h5, h6, Bool.not_true, Bool.false_eq_true, if_false, hb]
    simp [hx]

/-- C4 (witness): a concrete token over the body `[7]` satisfying every
side check. -/
theorem claim_C4_witness :
    c4Tok.algIsHMAC = true ∧ c4Tok.sigValidFor "k" = true
    ∧ c4Tok.claims.valid 50 = true
    ∧ c4Tok.claims.verifyIssuer "Upstash" true = true
    ∧ c4Tok.claims.verifyExpiresAt 50 true = true
    ∧ c4Tok.claims.verifyNotBefore 50 true = true
    ∧ ((verify [7] c4Tok "k" 50 = .ok () ↔ c4Tok.claims.body = some (bodyHashB64 [7]))
       ∧ ∀ body' : List Nat, sha256 body' ≠ sha256 [7] →
           c4Tok.claims.body = some (bodyHashB64 [7]) →
           verify body' c4Tok "k" 50 = .error .bodyHashMismatch) :=
  ⟨rfl, rfl, by decide, by decide, by decide, by decide,
   claim_C4 [7] c4Tok "k" 50 rfl rfl (by decide) (by decide) (by decide) (by decide)⟩

/-- C6: when verification succeeds, the handler dispatches the message
to the callback; if the callback leaves the message unacknowledged the
handler appends a 422 unprocessable response, and if it acknowledged the
handler writes nothing further — the 200 was written by `Ack` itself,
which sets the flag and immediately writes the success status. -/
theorem claim_C6 (q : Receiver) (req : InboundRequest) (now : Int)
    (f : Message × List RespEvent → Message × List RespEvent)
    (m2 : Message) (w2 : List RespEvent)
    (hv : verify req.body req.token q.signingKey now = .ok ())
    (hf : f (mkInboundMessage req, []) = (m2, w2)) :
    (m2.isAcknowledged = false →
        q.Receive req now (some f)
          = w2 ++ httpError "message was not acknowledged by the receiver" 422)
    ∧ (m2.isAcknowledged = true → q.Receive req now (some f) = w2)
    ∧ ∀ (m : Message) (w : List RespEvent),
        Message.Ack (m, w) = ({ m with isAcknowledged := true }, w ++ [RespEvent.status 200]) := by
  refine ⟨?_, ?_, fun m w => rfl⟩ <;>
    · intro h
      simp [Receiver.Receive, hv, hf, h, httpError]

/-- C6 (witness): a callback that calls `Ack` yields exactly one 200
response and nothing further. -/
theorem claim_C6_witness :
    verify c6Req.body c6Req.token c6Rcv.signingKey 50 = .ok ()
    ∧ Message.Ack (mkInboundMessage c6Req, [])
        = ({ mkInboundMessage c6Req with isAcknowledged := true }, [RespEvent.status 200])
    ∧ c6Rcv.Receive c6Req 50 (some Message.Ack) = [RespEvent.status 200] :=
  ⟨rfl, rfl,
   (claim_C6 c6Rcv c6Req 50 Message.Ack _ _ rfl rfl).2.1 rfl⟩

/-- C7 (counterexample): a token passing the signature, algorithm,
issuer, expiry and body-hash checks whose not-before claim is absent is
rejected with the not-yet-valid error, contradicting the claim that an
absent not-before claim is accepted. -/
theorem claim_C7_counterexample :
    c7Tok.algIsHMAC = true ∧ c7Tok.sigValidFor "k" = true
    ∧ c7Tok.claims.valid 50 = true
    ∧ c7Tok.claims.verifyIssuer "Upstash" true = true
    ∧ c7Tok.claims.verifyExpiresAt 50 true = true
    ∧ c7Tok.claims.body = some (bodyHashB64 [])
    ∧ c7Tok.claims.nbf = none
    ∧ verify [] c7Tok "k" 50 = .error .notYetValid
    ∧ verify [] c7Tok "k" 50 ≠ .ok () := by
  refine ⟨rfl, rfl, by decide, by decide, by decide, rfl, rfl, rfl, ?_⟩
  intro h
  simp [show verify [] c7Tok "k" 50 = .error .notYetValid from rfl] at h

/-- C7 (amended): with every other check passing, `verify` accepts the
token exactly when a not-before claim is present, nonzero and not after
verification time; an absent (or zero) not-before claim is rejected. -/
theorem claim_C7 (body : List Nat) (tok : JwtToken) (key : String) (now : Int)
    (h1 : tok.algIsHMAC = true) (h2 : tok.sigValidFor key = true)
    (h3 : tok.claims.verifyIssuer "Upstash" true = true)
    (h4 : tok.claims.verifyExpiresAt now true = true)
    (h5 : tok.claims.verifyIssuedAt now false = true)
    (hb : tok.claims.body = some (bodyHashB64 body)) :
    verify body tok key now = .ok ()
      ↔ ∃ n, tok.claims.nbf = some n ∧ n ≠ 0 ∧ n ≤ now := by
  have hexp : tok.claims.verifyExpiresAt now false = true := by
    unfold MapClaims.verifyExpiresAt verifyExpHelper at h4 ⊢
    cases h : tok.claims.exp with
    | none => rw [h] at h4; simp at h4
    | some e =>
        rw [h] at h4
        simp only at h4 ⊢
        split at h4
        · simp at h4
        · simp [*]
  unfold verify
  simp only [h1, h2, h3, h4, hb, Bool.not_true, Bool.false_eq_true, if_false]
  unfold MapClaims.valid
  rw [hexp, h5]
  simp only [Bool.true_and]
  unfold MapClaims.verifyNotBefore verifyNbfHelper
  cases hn : tok.claims.nbf with
  | none => simp
  | some n =>
      by_cases h0 : n = 0
      · simp [h0]
      · by_cases hle : n ≤ now
        · simp [h0, hle]
        · simp [h0, hle]

/-- C7 (witness): a token with not-before claim 1 verifies at time 50. -/
theorem claim_C7_witness :
    c7vTok.algIsHMAC = true ∧ c7vTok.sigValidFor "k" = true
    ∧ c7vTok.claims.verifyIssuer "Upstash" true = true
    ∧ c7vTok.claims.verifyExpiresAt 50 true = true
    ∧ c7vTok.claims.verifyIssuedAt 50 false = true
    ∧ c7vTok.claims.body = some (bodyHashB64 [])
    ∧ (verify [] c7vTok "k" 50 = .ok ()
        ↔ ∃ n, c7vTok.claims.nbf = some n ∧ n ≠ 0 ∧ n ≤ 50) :=
  ⟨rfl, rfl, by decide, by decide, by decide, rfl,
   claim_C7 [] c7vTok "k" 50 rfl rfl (by decide) (by decide) (by decide) rfl⟩

end QStash

namespace QStash

/-! ## Header map lemmas -/

theorem lookupA_setA_self (h : Hdr) (k : String) (v : List String) :
    lookupA (setA h k v) k = some v := by
  induction h with
  | nil => simp [setA, lookupA]
  | cons p t ih =>
      obtain ⟨k1, v1⟩ := p
      by_cases hk : k1 = k
      · simp [setA, hk, lookupA]
      · simp [setA, hk, lookupA, ih]

theorem lookupA_setA_ne (h : Hdr) {k k2 : String} (v : List String) (hne : k ≠ k2) :
    lookupA (setA h k v) k2 = lookupA h k2 := by
  induction h with
  | nil => simp [setA, lookupA, hne]
  | cons p t ih =>
      obtain ⟨k1, v1⟩ := p
      by_cases hk : k1 = k
      · subst hk; simp [setA, lookupA, hne]
      · simp [setA, hk, lookupA, ih]

/-- Reading any key other than the canonicalised one is unaffected by a
`Set`. -/
theorem hSet_skip (h : Hdr) {s k : String} (v : String) (hne : k ≠ canonicalKey s) :
    lookupA (hSet h s v) k = lookupA h k :=
  lookupA_setA_ne h _ (Ne.symm hne)

theorem hSet_self (h : Hdr) (s v : String) :
    lookupA (hSet h s v) (canonicalKey s) = some [v] :=
  lookupA_setA_self h _ _

theorem lookupA_ite_hSet (c : Prop) [Decidable c] (h : Hdr) (s v : String) {k : String}
    (hne : k ≠ canonicalKey s) :
    lookupA (if c then hSet h s v else h) k = lookupA h k := by
  split
  · exact hSet_skip h v hne
  · rfl

/-- Keys with the forwarding prefix differ from keys without it. -/
theorem fwd_ne_of {k s : String} (hk : fwdKey k = true) (hs : fwdKey s = false) : k ≠ s := by
  intro e
  subst e
  rw [hk] at hs
  cases hs

/-- A key without the forwarding prefix is absent from a header map all
of whose keys carry the prefix. -/
theorem lookupA_none_of_fwd (h : Hdr) {k : String} (hk : fwdKey k = false)
    (hall : ∀ p ∈ h, fwdKey p.1 = true) : lookupA h k = none := by
  induction h with
  | nil => rfl
  | cons p t ih =>
      obtain ⟨k1, v1⟩ := p
      have h1 : fwdKey k1 = true := hall (k1, v1) (by simp)
      have : k1 ≠ k := fwd_ne_of h1 hk
      simp [lookupA, this]
      exact ih (fun p hp => hall p (by simp [hp]))

/-- Canonical forms of the header names set by `Publish` (note that
`Set` canonicalises "Upstash-Deduplication-ID" to
"Upstash-Deduplication-Id"). -/
theorem canonicalKey_facts :
    canonicalKey "Upstash-Deduplication-ID" = "Upstash-Deduplication-Id"
    ∧ canonicalKey "Upstash-Content-Based-Deduplication" = "Upstash-Content-Based-Deduplication"
    ∧ canonicalKey "Authorization" = "Authorization"
    ∧ canonicalKey "Content-Type" = "Content-Type"
    ∧ canonicalKey "Upstash-Delay" = "Upstash-Delay"
    ∧ canonicalKey "Upstash-Schedule" = "Upstash-Schedule"
    ∧ canonicalKey "Upstash-Retries" = "Upstash-Retries" := by
  decide

/-- None of the header names set by `Publish` carries the forwarding
prefix. -/
theorem fwdKey_std_facts :
    fwdKey "Upstash-Deduplication-Id" = false
    ∧ fwdKey "Upstash-Content-Based-Deduplication" = false
    ∧ fwdKey "Authorization" = false
    ∧ fwdKey "Content-Type" = false
    ∧ fwdKey "Upstash-Delay" = false
    ∧ fwdKey "Upstash-Schedule" = false
    ∧ fwdKey "Upstash-Retries" = false := by
  decide

/-! ## stdHeaders lookups -/

theorem stdHeaders_lookup_other (q : Publisher) (os : PublishOptions) (h : Hdr) {k : String}
    (h1 : k ≠ "Authorization") (h2 : k ≠ "Content-Type") (h3 : k ≠ "Upstash-Delay")
    (h4 : k ≠ "Upstash-Schedule") (h5 : k ≠ "Upstash-Retries") :
    lookupA (stdHeaders q os h) k = lookupA h k := by
  simp only [stdHeaders]
  rw [lookupA_ite_hSet _ _ _ _ (by rw [canonicalKey_facts.2.2.2.2.2.2]; exact h5)]
  rw [lookupA_ite_hSet _ _ _ _ (by rw [canonicalKey_facts.2.2.2.2.2.1]; exact h4)]
  rw [lookupA_ite_hSet _ _ _ _ (by rw [canonicalKey_facts.2.2.2.2.1]; exact h3)]
  rw [hSet_skip _ _ (by rw [canonicalKey_facts.2.2.2.1]; exact h2)]
  rw [hSet_skip _ _ (by rw [canonicalKey_facts.2.2.1]; exact h1)]

theorem stdHeaders_auth (q : Publisher) (os : PublishOptions) (h : Hdr) :
    lookupA (stdHeaders q os h) "Authorization" = some ["Bearer " ++ q.token] := by
  simp only [stdHeaders]
  rw [lookupA_ite_hSet _ _ _ _ (by decide)]
  rw [lookupA_ite_hSet _ _ _ _ (by decide)]
  rw [lookupA_ite_hSet _ _ _ _ (by decide)]
  rw [hSet_skip _ _ (by decide)]
  have := hSet_self h "Authorization" ("Bearer " ++ q.token)
  rwa [canonicalKey_facts.2.2.1] at this

theorem stdHeaders_ctype (q : Publisher) (os : PublishOptions) (h : Hdr) :
    lookupA (stdHeaders q os h) "Content-Type" = some ["application/json"] := by
  simp only [stdHeaders]
  rw [lookupA_ite_hSet _ _ _ _ (by decide)]
  rw [lookupA_ite_hSet _ _ _ _ (by decide)]
  rw [lookupA_ite_hSet _ _ _ _ (by decide)]
  have := hSet_self (hSet h "Authorization" ("Bearer " ++ q.token)) "Content-Type" "application/json"
  rwa [canonicalKey_facts.2.2.2.1] at this

theorem stdHeaders_delay (q : Publisher) (os : PublishOptions) (h : Hdr) (hd : 0 < os.Delay) :
    lookupA (stdHeaders q os h) "Upstash-Delay" = some [durationStr os.Delay] := by
  simp only [stdHeaders]
  rw [lookupA_ite_hSet _ _ _ _ (by decide)]
  rw [lookupA_ite_hSet _ _ _ _ (by decide)]
  rw [if_pos hd]
  have := hSet_self (hSet (hSet h "Authorization" ("Bearer " ++ q.token)) "Content-Type"
    "application/json") "Upstash-Delay" (durationStr os.Delay)
  rwa [canonicalKey_facts.2.2.2.2.1] at this

theorem stdHeaders_schedule (q : Publisher) (os : PublishOptions) (h : Hdr)
    (hs : 0 < os.Schedule.length) :
    lookupA (stdHeaders q os h) "Upstash-Schedule" = some [os.Schedule] := by
  simp only [stdHeaders]
  rw [lookupA_ite_hSet _ _ _ _ (by decide)]
  rw [if_pos hs]
  have := hSet_self (if 0 < os.Delay then
      hSet (hSet (hSet h "Authorization" ("Bearer " ++ q.token)) "Content-Type"
        "application/json") "Upstash-Delay" (durationStr os.Delay)
    else hSet (hSet h "Authorization" ("Bearer " ++ q.token)) "Content-Type"
      "application/json") "Upstash-Schedule" os.Schedule
  rwa [canonicalKey_facts.2.2.2.2.2.1] at this

theorem stdHeaders_retries (q : Publisher) (os : PublishOptions) (h : Hdr)
    (hr : 0 < os.Retries) :
    lookupA (stdHeaders q os h) "Upstash-Retries" = some [toString os.Retries] := by
  simp only [stdHeaders]
  rw [if_pos hr]
  generalize (if 0 < os.Schedule.length then _ else _ : Hdr) = h5
  have := hSet_self h5 "Upstash-Retries" (toString os.Retries)
  rwa [canonicalKey_facts.2.2.2.2.2.2] at this

end QStash


namespace QStash

theorem publishSend_sent (m : Message) (al : Bool) (req : Request)
    (doReq : Request → Except String Response) :
    (publishSend m al req doReq).sent = some req := by
  unfold publishSend
  cases hdo : doReq req with
  | error e => rfl
  | ok rsp =>
      by_cases h : rsp.StatusCode < 200 ∨ 299 < rsp.StatusCode
      · simp [h]
      · simp only [if_neg h]
        cases rsp.DecodedMessageId <;> rfl

theorem Publish_sent_char (q : Publisher) (m : Message) (os : PublishOptions)
    (newV4 : Except String String) (doReq : Request → Except String Response) (r : Request)
    (hsent : (Publish q m os newV4 doReq).sent = some r) :
    ∃ h0 aliased,
      ((m.Headers = some h0 ∧ aliased = true) ∨ (m.Headers = none ∧ h0 = [] ∧ aliased = false))
      ∧ (∀ p ∈ h0, fwdKey p.1 = true)
      ∧ (0 < m.ID.length → os.ContentBasedDeduplication = false)
      ∧ ∃ h1,
          ((os.ContentBasedDeduplication = true
              ∧ h1 = hSet h0 "Upstash-Content-Based-Deduplication" "true")
           ∨ (os.ContentBasedDeduplication = false ∧ 0 < m.ID.length
              ∧ h1 = hSet h0 "Upstash-Deduplication-ID" m.ID)
           ∨ (os.ContentBasedDeduplication = false ∧ m.ID.length = 0
              ∧ ∃ g, newV4 = .ok g ∧ h1 = hSet h0 "Upstash-Deduplication-ID" g))
          ∧ r = { method := "POST", url := q.url ++ "/" ++ q.topic,
                  hdrs := stdHeaders q os h1, body := m.Body }
          ∧ Publish q m os newV4 doReq = publishSend m aliased r doReq := by
  -- case split on the caller's header map
  cases hm : m.Headers with
  | some hs =>
      by_cases hbad : hs.any (fun p => !fwdKey p.1) = true
      · exfalso
        have hnone : (Publish q m os newV4 doReq).sent = none := by
          unfold Publish
          rw [hm]
          simp [hbad]
        rw [hnone] at hsent
        exact Option.noConfusion hsent
      · have hfwd : ∀ p ∈ hs, fwdKey p.1 = true := by
          intro p hp
          cases hf : fwdKey p.1 with
          | false => exact absurd (List.any_eq_true.2 ⟨p, hp, by simp [hf]⟩) hbad
          | true => rfl
        rw [Bool.not_eq_true] at hbad
        by_cases hcon : 0 < m.ID.length ∧ os.ContentBasedDeduplication = true
        · exfalso
          have hnone : (Publish q m os newV4 doReq).sent = none := by
            unfold Publish
            rw [hm]
            simp [hbad, hcon]
          rw [hnone] at hsent
          exact Option.noConfusion hsent
        · by_cases hcbd : os.ContentBasedDeduplication = true
          · have heq : Publish q m os newV4 doReq
                = publishSend m true
                    { method := "POST", url := q.url ++ "/" ++ q.topic,
                      hdrs := stdHeaders q os (hSet hs "Upstash-Content-Based-Deduplication" "true"),
                      body := m.Body } doReq := by
              unfold Publish
              rw [hm]
              simp only [hbad, Bool.false_eq_true, if_false]
              rw [if_neg hcon]
              simp [hcbd]
            rw [heq, publishSend_sent] at hsent
            injection hsent with hr
            subst hr
            exact ⟨hs, true, Or.inl ⟨rfl, rfl⟩, hfwd,
              fun hl => absurd ⟨hl, hcbd⟩ hcon, _, Or.inl ⟨hcbd, rfl⟩, rfl, heq⟩
          · rw [Bool.not_eq_true] at hcbd
            by_cases hid : 0 < m.ID.length
            · have heq : Publish q m os newV4 doReq
                  = publishSend m true
                      { method := "POST", url := q.url ++ "/" ++ q.topic,
                        hdrs := stdHeaders q os (hSet hs "Upstash-Deduplication-ID" m.ID),
                        body := m.Body } doReq := by
                unfold Publish
                rw [hm]
                simp only [hbad, Bool.false_eq_true, if_false]
                rw [if_neg hcon]
                simp [hcbd, hid]
              rw [heq, publishSend_sent] at hsent
              injection hsent with hr
              subst hr
              exact ⟨hs, true, Or.inl ⟨rfl, rfl⟩, hfwd, fun _ => hcbd, _,
                Or.inr (Or.inl ⟨hcbd, hid, rfl⟩), rfl, heq⟩
            · cases hnv : newV4 with
              | error e =>
                  exfalso
                  have hnone : (Publish q m os newV4 doReq).sent = none := by
                    unfold Publish
                    rw [hm, hnv]
                    simp only [hbad, Bool.false_eq_true, if_false]
                    rw [if_neg hcon]
                    simp [hcbd, hid]
                  rw [hnone] at hsent
                  exact Option.noConfusion hsent
              | ok g =>
                  have heq : Publish q m os newV4 doReq
                      = publishSend m true
                          { method := "POST", url := q.url ++ "/" ++ q.topic,
                            hdrs := stdHeaders q os (hSet hs "Upstash-Deduplication-ID" g),
                            body := m.Body } doReq := by
                    unfold Publish
                    rw [hm, hnv]
                    simp only [hbad, Bool.false_eq_true, if_false]
                    rw [if_neg hcon]
                    simp [hcbd, hid]
                  rw [heq, publishSend_sent] at hsent
                  injection hsent with hr
                  subst hr
                  rw [hnv] at heq
                  exact ⟨hs, true, Or.inl ⟨rfl, rfl⟩, hfwd, fun _ => hcbd, _,
                    Or.inr (Or.inr ⟨hcbd, by omega, g, rfl, rfl⟩), rfl, heq⟩
  | none =>
      by_cases hcon : 0 < m.ID.length ∧ os.ContentBasedDeduplication = true
      · exfalso
        have hnone : (Publish q m os newV4 doReq).sent = none := by
          unfold Publish
          rw [hm]
          simp [hcon]
        rw [hnone] at hsent
        exact Option.noConfusion hsent
      · by_cases hcbd : os.ContentBasedDeduplication = true
        · have heq : Publish q m os newV4 doReq
              = publishSend m false
                  { method := "POST", url := q.url ++ "/" ++ q.topic,
                    hdrs := stdHeaders q os (hSet [] "Upstash-Content-Based-Deduplication" "true"),
                    body := m.Body } doReq := by
            unfold Publish
            rw [hm]
            simp only []
            rw [if_neg hcon]
            simp [hcbd]
          rw [heq, publishSend_sent] at hsent
          injection hsent with hr
          subst hr
          exact ⟨[], false, Or.inr ⟨rfl, rfl, rfl⟩, by simp,
            fun hl => absurd ⟨hl, hcbd⟩ hcon, _, Or.inl ⟨hcbd, rfl⟩, rfl, heq⟩
        · rw [Bool.not_eq_true] at hcbd
          by_cases hid : 0 < m.ID.length
          · have heq : Publish q m os newV4 doReq
                = publishSend m false
                    { method := "POST", url := q.url ++ "/" ++ q.topic,
                      hdrs := stdHeaders q os (hSet [] "Upstash-Deduplication-ID" m.ID),
                      body := m.Body } doReq := by
              unfold Publish
              rw [hm]
              simp only []
              rw [if_neg hcon]
              simp [hcbd, hid]
            rw [heq, publishSend_sent] at hsent
            injection hsent with hr
            subst hr
            exact ⟨[], false, Or.inr ⟨rfl, rfl, rfl⟩, by simp, fun _ => hcbd, _,
              Or.inr (Or.inl ⟨hcbd, hid, rfl⟩), rfl, heq⟩
          · cases hnv : newV4 with
            | error e =>
                exfalso
                have hnone : (Publish q m os newV4 doReq).sent = none := by
                  unfold Publish
                  rw [hm, hnv]
                  simp only []
                  rw [if_neg hcon]
                  simp [hcbd, hid]
                rw [hnone] at hsent
                exact Option.noConfusion hsent
            | ok g =>
                have heq : Publish q m os newV4 doReq
                    = publishSend m false
                        { method := "POST", url := q.url ++ "/" ++ q.topic,
                          hdrs := stdHeaders q os (hSet [] "Upstash-Deduplication-ID" g),
                          body := m.Body } doReq := by
                  unfold Publish
                  rw [hm, hnv]
                  simp only []
                  rw [if_neg hcon]
                  simp [hcbd, hid]
                rw [heq, publishSend_sent] at hsent
                injection hsent with hr
                subst hr
                rw [hnv] at heq
                exact ⟨[], false, Or.inr ⟨rfl, rfl, rfl⟩, by simp, fun _ => hcbd, _,
                  Or.inr (Or.inr ⟨hcbd, by omega, g, rfl, rfl⟩), rfl, heq⟩

end QStash

namespace QStash

theorem publishSend_final_Headers (m : Message) (req : Request)
    (doReq : Request → Except String Response) :
    (publishSend m true req doReq).final.Headers = some req.hdrs := by
  unfold publishSend
  cases hdo : doReq req with
  | error e => rfl
  | ok rsp =>
      by_cases h : rsp.StatusCode < 200 ∨ 299 < rsp.StatusCode
      · simp [h]
      · simp only [if_neg h]
        cases rsp.DecodedMessageId <;> rfl

theorem publishSend_result_ne_badHeader (m : Message) (al : Bool) (req : Request)
    (doReq : Request → Except String Response) :
    (publishSend m al req doReq).result ≠ .error .badHeaderKey := by
  unfold publishSend
  cases hdo : doReq req with
  | error e => simp
  | ok rsp =>
      by_cases h : rsp.StatusCode < 200 ∨ 299 < rsp.StatusCode
      · simp [h]
      · simp only [if_neg h]
        cases rsp.DecodedMessageId <;> simp

/-- C3: a Publish call with both a caller id and content-based dedup
fails with a validation error before any transport interaction; every
request that does reach the transport carries exactly one deduplication
header — the content-based flag, or the caller's id, or a freshly
generated identifier. -/
theorem claim_C3 (q : Publisher) (m : Message) (os : PublishOptions)
    (newV4 : Except String String) (doReq : Request → Except String Response) :
    ((0 < m.ID.length ∧ os.ContentBasedDeduplication = true) →
        (Publish q m os newV4 doReq).sent = none
        ∧ ((Publish q m os newV4 doReq).result = .error .badHeaderKey
            ∨ (Publish q m os newV4 doReq).result = .error .dedupConflict))
    ∧ ∀ r, (Publish q m os newV4 doReq).sent = some r →
        (os.ContentBasedDeduplication = true →
            lookupA r.hdrs "Upstash-Content-Based-Deduplication" = some ["true"]
            ∧ lookupA r.hdrs "Upstash-Deduplication-Id" = none)
        ∧ (os.ContentBasedDeduplication = false →
            lookupA r.hdrs "Upstash-Content-Based-Deduplication" = none
            ∧ ((0 < m.ID.length ∧ lookupA r.hdrs "Upstash-Deduplication-Id" = some [m.ID])
               ∨ (m.ID.length = 0
                  ∧ ∃ g, newV4 = .ok g
                      ∧ lookupA r.hdrs "Upstash-Deduplication-Id" = some [g]))) := by
  constructor
  · intro hcon
    unfold Publish
    cases hm : m.Headers with
    | some hs =>
        by_cases hbad : hs.any (fun p => !fwdKey p.1) = true
        · simp [hbad]
        · rw [Bool.not_eq_true] at hbad
          simp [hbad, if_pos hcon]
    | none => simp [if_pos hcon]
  · intro r hsent
    obtain ⟨h0, al, _, hfwd, _, h1, hdedup, hr, _⟩ :=
      Publish_sent_char q m os newV4 doReq r hsent
    have hrh : r.hdrs = stdHeaders q os h1 := by rw [hr]
    have hcb0 : lookupA h0 "Upstash-Content-Based-Deduplication" = none :=
      lookupA_none_of_fwd h0 fwdKey_std_facts.2.1 hfwd
    have hid0 : lookupA h0 "Upstash-Deduplication-Id" = none :=
      lookupA_none_of_fwd h0 fwdKey_std_facts.1 hfwd
    have hcbStd : lookupA r.hdrs "Upstash-Content-Based-Deduplication"
        = lookupA h1 "Upstash-Content-Based-Deduplication" := by
      rw [hrh]
      exact stdHeaders_lookup_other q os h1 (by decide) (by decide) (by decide)
        (by decide) (by decide)
    have hidStd : lookupA r.hdrs "Upstash-Deduplication-Id"
        = lookupA h1 "Upstash-Deduplication-Id" := by
      rw [hrh]
      exact stdHeaders_lookup_other q os h1 (by decide) (by decide) (by decide)
        (by decide) (by decide)
    constructor
    · intro hcbd
      rcases hdedup with ⟨_, hh1⟩ | ⟨hf, _⟩ | ⟨hf, _⟩
      · subst hh1
        constructor
        · rw [hcbStd]
          have := hSet_self h0 "Upstash-Content-Based-Deduplication" "true"
          rwa [canonicalKey_facts.2.1] at this
        · rw [hidStd]
          rw [hSet_skip h0 "true" (by decide)]
          exact hid0
      · rw [hcbd] at hf; cases hf
      · rw [hcbd] at hf; cases hf
    · intro hcbd
      rcases hdedup with ⟨ht, _⟩ | ⟨_, hid, hh1⟩ | ⟨_, hid, g, hnv, hh1⟩
      · rw [hcbd] at ht; cases ht
      · subst hh1
        constructor
        · rw [hcbStd]
          rw [hSet_skip h0 m.ID (by decide)]
          exact hcb0
        · left
          refine ⟨hid, ?_⟩
          rw [hidStd]
          have := hSet_self h0 "Upstash-Deduplication-ID" m.ID
          rwa [canonicalKey_facts.1] at this
      · subst hh1
        constructor
        · rw [hcbStd]
          rw [hSet_skip h0 g (by decide)]
          exact hcb0
        · right
          refine ⟨hid, g, hnv, ?_⟩
          rw [hidStd]
          have := hSet_self h0 "Upstash-Deduplication-ID" g
          rwa [canonicalKey_facts.1] at this

end QStash

namespace QStash

/-- C3 (witness): the conflict instance from the repository's own test
("Publish with custom id and content based deduplication fails"). -/
theorem claim_C3_witness :
    (0 < conflictMsg.ID.length ∧ cbdOpts.ContentBasedDeduplication = true)
    ∧ (Publish pubQ conflictMsg cbdOpts (.ok "uuid") okDo).sent = none
    ∧ ((Publish pubQ conflictMsg cbdOpts (.ok "uuid") okDo).result = .error .badHeaderKey
        ∨ (Publish pubQ conflictMsg cbdOpts (.ok "uuid") okDo).result
            = .error .dedupConflict) :=
  ⟨by decide,
   ((claim_C3 pubQ conflictMsg cbdOpts (.ok "uuid") okDo).1 (by decide)).1,
   ((claim_C3 pubQ conflictMsg cbdOpts (.ok "uuid") okDo).1 (by decide)).2⟩

/-- C9 (amended): the header-prefix validation error is returned exactly
when some custom header key lacks the case-insensitive
"upstash-forward-" prefix (and then nothing reaches the transport);
when every key carries the prefix, each caller-supplied header is
observable verbatim on the outgoing request. -/
theorem claim_C9 (q : Publisher) (m : Message) (os : PublishOptions)
    (newV4 : Except String String) (doReq : Request → Except String Response)
    (hs : Hdr) (hh : m.Headers = some hs) :
    ((Publish q m os newV4 doReq).result = .error .badHeaderKey
        ↔ ∃ p ∈ hs, fwdKey p.1 = false)
    ∧ ((∃ p ∈ hs, fwdKey p.1 = false) → (Publish q m os newV4 doReq).sent = none)
    ∧ ∀ r, (Publish q m os newV4 doReq).sent = some r →
        ∀ p ∈ hs, lookupA r.hdrs p.1 = lookupA hs p.1 := by
  have hex : (∃ p ∈ hs, fwdKey p.1 = false) ↔ hs.any (fun p => !fwdKey p.1) = true := by
    rw [List.any_eq_true]
    constructor
    · rintro ⟨p, hp, hf⟩; exact ⟨p, hp, by simp [hf]⟩
    · rintro ⟨p, hp, hf⟩
      refine ⟨p, hp, ?_⟩
      cases hfk : fwdKey p.1
      · rfl
      · rw [hfk] at hf; cases hf
  refine ⟨?_, ?_, ?_⟩
  · by_cases hbad : hs.any (fun p => !fwdKey p.1) = true
    · constructor
      · intro _; exact hex.2 hbad
      · intro _
        unfold Publish
        rw [hh]
        simp [hbad]
    · constructor
      · intro hres
        exfalso
        rw [Bool.not_eq_true] at hbad
        unfold Publish at hres
        rw [hh] at hres
        simp only [hbad, Bool.false_eq_true, if_false] at hres
        by_cases hcon : 0 < m.ID.length ∧ os.ContentBasedDeduplication = true
        · rw [if_pos hcon] at hres
          simp at hres
        · rw [if_neg hcon] at hres
          by_cases hcbd : os.ContentBasedDeduplication = true
          · simp only [hcbd, if_true] at hres
            exact publishSend_result_ne_badHeader _ _ _ _ hres
          · rw [Bool.not_eq_true] at hcbd
            simp only [hcbd, Bool.false_eq_true, if_false] at hres
            by_cases hid : 0 < m.ID.length
            · simp only [hid, if_true] at hres
              exact publishSend_result_ne_badHeader _ _ _ _ hres
            · simp only [hid, if_false] at hres
              cases hnv : newV4 with
              | error e => rw [hnv] at hres; simp at hres
              | ok g =>
                  rw [hnv] at hres
                  simp only [] at hres
                  exact publishSend_result_ne_badHeader _ _ _ _ hres
      · intro hexs
        have hbad2 := hex.1 hexs
        exact absurd hbad2 hbad
  · intro hexs
    unfold Publish
    rw [hh]
    simp [hex.1 hexs]
  · intro r hsent p hp
    obtain ⟨h0, al, hcase, hfwd, _, h1, hdedup, hr, _⟩ :=
      Publish_sent_char q m os newV4 doReq r hsent
    have hh0 : h0 = hs := by
      rcases hcase with ⟨he, _⟩ | ⟨he, _, _⟩
      · rw [hh] at he; injection he with he2; exact he2.symm
      · rw [hh] at he; cases he
    subst hh0
    have hpk : fwdKey p.1 = true := hfwd p hp
    have hrh : r.hdrs = stdHeaders q os h1 := by rw [hr]
    have hstd : lookupA r.hdrs p.1 = lookupA h1 p.1 := by
      rw [hrh]
      exact stdHeaders_lookup_other q os h1
        (fwd_ne_of hpk fwdKey_std_facts.2.2.1)
        (fwd_ne_of hpk fwdKey_std_facts.2.2.2.1)
        (fwd_ne_of hpk fwdKey_std_facts.2.2.2.2.1)
        (fwd_ne_of hpk fwdKey_std_facts.2.2.2.2.2.1)
        (fwd_ne_of hpk fwdKey_std_facts.2.2.2.2.2.2)
    rw [hstd]
    rcases hdedup with ⟨_, hh1⟩ | ⟨_, _, hh1⟩ | ⟨_, _, g, _, hh1⟩ <;> subst hh1
    · exact hSet_skip h0 "true"
        (by rw [canonicalKey_facts.2.1]; exact fwd_ne_of hpk fwdKey_std_facts.2.1)
    · exact hSet_skip h0 m.ID
        (by rw [canonicalKey_facts.1]; exact fwd_ne_of hpk fwdKey_std_facts.1)
    · exact hSet_skip h0 g
        (by rw [canonicalKey_facts.1]; exact fwd_ne_of hpk fwdKey_std_facts.1)

end QStash

namespace QStash

/-- C9 (counterexample): a message whose only custom header key carries
the forwarding prefix can still fail with a validation error before any
transport interaction — the dedup-conflict validation error — so
"returns a validation error iff some header key lacks the prefix" is
false in its only-if direction. -/
theorem claim_C9_counterexample :
    (∀ p ∈ c9Msg.Headers.getD [], fwdKey p.1 = true)
    ∧ (Publish pubQ c9Msg cbdOpts (.ok "uuid") okDo).result = .error .dedupConflict
    ∧ (Publish pubQ c9Msg cbdOpts (.ok "uuid") okDo).sent = none
    ∧ (Publish pubQ c9Msg cbdOpts (.ok "uuid") okDo).result ≠ .error .badHeaderKey := by
  decide

/-- C9 (witness): a key without the prefix is rejected before the
transport. -/
theorem claim_C9_witness :
    c9BadMsg.Headers = some [("X-Custom", ["v"])]
    ∧ (Publish pubQ c9BadMsg {} (.ok "uuid") okDo).result = .error .badHeaderKey
    ∧ (Publish pubQ c9BadMsg {} (.ok "uuid") okDo).sent = none :=
  ⟨rfl,
   (claim_C9 pubQ c9BadMsg {} (.ok "uuid") okDo [("X-Custom", ["v"])] rfl).1.2
     ⟨("X-Custom", ["v"]), by decide, by decide⟩,
   (claim_C9 pubQ c9BadMsg {} (.ok "uuid") okDo [("X-Custom", ["v"])] rfl).2.1
     ⟨("X-Custom", ["v"]), by decide, by decide⟩⟩

/-- C10: when the caller supplies a non-nil header map, that very map
becomes the request's header map and Publish writes into it: after any
call that reached the transport, the caller's `Message.Headers` equals
the request's header map, which now also carries the Authorization,
Content-Type, deduplication and any delay/schedule/retries headers —
it is not left unchanged. -/
theorem claim_C10 (q : Publisher) (m : Message) (os : PublishOptions)
    (newV4 : Except String String) (doReq : Request → Except String Response)
    (hs : Hdr) (hh : m.Headers = some hs)
    (r : Request) (hsent : (Publish q m os newV4 doReq).sent = some r) :
    (Publish q m os newV4 doReq).final.Headers = some r.hdrs
    ∧ lookupA r.hdrs "Authorization" = some ["Bearer " ++ q.token]
    ∧ lookupA r.hdrs "Content-Type" = some ["application/json"]
    ∧ (lookupA r.hdrs "Upstash-Deduplication-Id" ≠ none
        ∨ lookupA r.hdrs "Upstash-Content-Based-Deduplication" ≠ none)
    ∧ (0 < os.Delay → lookupA r.hdrs "Upstash-Delay" = some [durationStr os.Delay])
    ∧ (0 < os.Schedule.length →
        lookupA r.hdrs "Upstash-Schedule" = some [os.Schedule])
    ∧ (0 < os.Retries → lookupA r.hdrs "Upstash-Retries" = some [toString os.Retries])
    ∧ (Publish q m os newV4 doReq).final.Headers ≠ m.Headers := by
  obtain ⟨h0, al, hcase, hfwd, _, h1, hdedup, hr, hpub⟩ :=
    Publish_sent_char q m os newV4 doReq r hsent
  have hal : al = true := by
    rcases hcase with ⟨_, h⟩ | ⟨he, _, _⟩
    · exact h
    · rw [hh] at he; cases he
  have hh0 : h0 = hs := by
    rcases hcase with ⟨he, _⟩ | ⟨he, _, _⟩
    · rw [hh] at he; injection he with he2; exact he2.symm
    · rw [hh] at he; cases he
  subst hal hh0
  have hfin : (Publish q m os newV4 doReq).final.Headers = some r.hdrs := by
    rw [hpub]
    exact publishSend_final_Headers m r doReq
  have hrh : r.hdrs = stdHeaders q os h1 := by rw [hr]
  have hauth : lookupA r.hdrs "Authorization" = some ["Bearer " ++ q.token] := by
    rw [hrh]; exact stdHeaders_auth q os h1
  refine ⟨hfin, hauth, ?_, ?_, ?_, ?_, ?_, ?_⟩
  · rw [hrh]; exact stdHeaders_ctype q os h1
  · have hidStd : lookupA r.hdrs "Upstash-Deduplication-Id"
        = lookupA h1 "Upstash-Deduplication-Id" := by
      rw [hrh]
      exact stdHeaders_lookup_other q os h1 (by decide) (by decide) (by decide)
        (by decide) (by decide)
    have hcbStd : lookupA r.hdrs "Upstash-Content-Based-Deduplication"
        = lookupA h1 "Upstash-Content-Based-Deduplication" := by
      rw [hrh]
      exact stdHeaders_lookup_other q os h1 (by decide) (by decide) (by decide)
        (by decide) (by decide)
    rcases hdedup with ⟨_, hh1⟩ | ⟨_, _, hh1⟩ | ⟨_, _, g, _, hh1⟩ <;> subst hh1
    · right
      rw [hcbStd]
      have := hSet_self h0 "Upstash-Content-Based-Deduplication" "true"
      rw [canonicalKey_facts.2.1] at this
      rw [this]
      simp
    · left
      rw [hidStd]
      have := hSet_self h0 "Upstash-Deduplication-ID" m.ID
      rw [canonicalKey_facts.1] at this
      rw [this]
      simp
    · left
      rw [hidStd]
      have := hSet_self h0 "Upstash-Deduplication-ID" g
      rw [canonicalKey_facts.1] at this
      rw [this]
      simp
  · intro hd; rw [hrh]; exact stdHeaders_delay q os h1 hd
  · intro hsch; rw [hrh]; exact stdHeaders_schedule q os h1 hsch
  · intro hrt; rw [hrh]; exact stdHeaders_retries q os h1 hrt
  · rw [hfin, hh]
    intro he
    injection he with he2
    have h2 : lookupA h0 "Authorization" = some ["Bearer " ++ q.token] := by
      rw [← he2]; exact hauth
    rw [lookupA_none_of_fwd h0 fwdKey_std_facts.2.2.1 hfwd] at h2
    cases h2

end QStash

namespace QStash

/-- C10 (witness): the repository-test-like publish with one forwarded
header mutates the caller's map. -/
theorem claim_C10_witness :
    c10Msg.Headers = some [("Upstash-Forward-Key", ["value"])]
    ∧ (Publish pubQ c10Msg {} (.ok "uuid") okDo).sent = some c10Req
    ∧ ((Publish pubQ c10Msg {} (.ok "uuid") okDo).final.Headers = some c10Req.hdrs
       ∧ lookupA c10Req.hdrs "Authorization" = some ["Bearer " ++ pubQ.token]
       ∧ lookupA c10Req.hdrs "Content-Type" = some ["application/json"]
       ∧ (lookupA c10Req.hdrs "Upstash-Deduplication-Id" ≠ none
           ∨ lookupA c10Req.hdrs "Upstash-Content-Based-Deduplication" ≠ none)
       ∧ (0 < ({} : PublishOptions).Delay →
            lookupA c10Req.hdrs "Upstash-Delay"
              = some [durationStr ({} : PublishOptions).Delay])
       ∧ (0 < ({} : PublishOptions).Schedule.length →
            lookupA c10Req.hdrs "Upstash-Schedule" = some [({} : PublishOptions).Schedule])
       ∧ (0 < ({} : PublishOptions).Retries →
            lookupA c10Req.hdrs "Upstash-Retries"
              = some [toString ({} : PublishOptions).Retries])
       ∧ (Publish pubQ c10Msg {} (.ok "uuid") okDo).final.Headers ≠ c10Msg.Headers) :=
  ⟨rfl, by decide,
   claim_C10 pubQ c10Msg {} (.ok "uuid") okDo [("Upstash-Forward-Key", ["value"])] rfl
     c10Req (by decide)⟩

/-- C8: once a request reaches the transport and a response comes back,
a status outside [200,299] yields an error carrying the status code and
the body text with the caller's identifier untouched; a success status
decodes the `messageId` field into the caller's identifier, and a
decode failure is returned as an error. -/
theorem claim_C8 (q : Publisher) (m : Message) (os : PublishOptions)
    (newV4 : Except String String) (doReq : Request → Except String Response)
    (r : Request) (rsp : Response)
    (hsent : (Publish q m os newV4 doReq).sent = some r)
    (hdo : doReq r = .ok rsp) :
    ((rsp.StatusCode < 200 ∨ 299 < rsp.StatusCode) →
        (Publish q m os newV4 doReq).result = .error (.badStatus rsp.StatusCode rsp.BodyText)
        ∧ (Publish q m os newV4 doReq).final.ID = m.ID)
    ∧ ((200 ≤ rsp.StatusCode ∧ rsp.StatusCode ≤ 299) →
        (∀ mid, rsp.DecodedMessageId = .ok mid →
            (Publish q m os newV4 doReq).result = .ok ()
            ∧ (Publish q m os newV4 doReq).final.ID = mid)
        ∧ ∀ e, rsp.DecodedMessageId = .error e →
            (Publish q m os newV4 doReq).result = .error (.decodeFailed e)) := by
  obtain ⟨h0, al, hcase, hfwd, hcons, h1, hded, hr, hpub⟩ :=
    Publish_sent_char q m os newV4 doReq r hsent
  constructor
  · intro hst
    rw [hpub]
    unfold publishSend
    rw [hdo]
    simp only [if_pos hst]
    exact ⟨by trivial, by cases al <;> rfl⟩
  · intro hst
    have hst2 : ¬(rsp.StatusCode < 200 ∨ 299 < rsp.StatusCode) := by omega
    constructor
    · intro mid hmid
      rw [hpub]
      unfold publishSend
      rw [hdo]
      simp only [if_neg hst2]
      rw [hmid]
      exact ⟨by trivial, by trivial⟩
    · intro e he
      rw [hpub]
      unfold publishSend
      rw [hdo]
      simp only [if_neg hst2]
      rw [he]

/-- C8 (witness): a transport answering 500 with body "boom". -/
theorem claim_C8_witness :
    (Publish pubQ c8Msg {} (.ok "uuid") failDo).sent = some c8Req
    ∧ failDo c8Req = .ok ⟨500, "boom", .error "not json"⟩
    ∧ ((500 : Int) < 200 ∨ (299 : Int) < 500)
    ∧ (Publish pubQ c8Msg {} (.ok "uuid") failDo).result = .error (.badStatus 500 "boom")
    ∧ (Publish pubQ c8Msg {} (.ok "uuid") failDo).final.ID = c8Msg.ID :=
  ⟨by decide, rfl, by decide,
   ((claim_C8 pubQ c8Msg {} (.ok "uuid") failDo c8Req ⟨500, "boom", .error "not json"⟩
       (by decide) rfl).1 (by decide)).1,
   ((claim_C8 pubQ c8Msg {} (.ok "uuid") failDo c8Req ⟨500, "boom", .error "not json"⟩
       (by decide) rfl).1 (by decide)).2⟩

end QStash
